import Mathlib

/-!
Verification development for the `permissible` authorization library.

The definitions below are a shallow embedding of the permission-evaluation
engine: the `PermDef` rule evaluation (`permissible/perm_def.py`), the
`CompositePermDef` combinator (`permissible/perm_def/composite.py`), the
`PermissibleMixin` facade (`permissible/models/permissible_mixin.py`), the
RBAC reconciliation (`permissible/models/role_based/core.py` together with
`permissible/models/utils/update.py`), and the hierarchical target/ancestor
logic (`permissible/models/hierarchical_perm_root.py`).

External collaborators (the Django ORM rows, djangoguardian permission
store, the user object) are modelled as explicit state and oracles; machine
behaviour that can raise is modelled with `Except`.
-/

namespace Permissible

/-- Decidable equality for `Except`, used to evaluate concrete check
results. -/
instance {ε α : Type} [DecidableEq ε] [DecidableEq α] : DecidableEq (Except ε α) :=
  fun x y =>
    match x, y with
    | .ok a, .ok b =>
      if h : a = b then .isTrue (by rw [h])
      else .isFalse (fun hc => h (by injection hc))
    | .error a, .error b =>
      if h : a = b then .isTrue (by rw [h])
      else .isFalse (fun hc => h (by injection hc))
    | .ok _, .error _ => .isFalse (fun hc => Except.noConfusion hc)
    | .error _, .ok _ => .isFalse (fun hc => Except.noConfusion hc)

/-! ## ShortPermsMixin (`permissible/perm_def.py`) -/

/-- Model-class metadata used by `ShortPermsMixin` (`cls._meta.app_label`,
`cls._meta.model_name`). -/
structure PClass where
  app_label : String
  model_name : String
deriving DecidableEq

/-- `ShortPermsMixin.get_permission_codename`: expands a short permission code
such as `view` to `app_label.view_modelname` (or `view_modelname` when
`include_app_label` is false). -/
def PClass.get_permission_codename (cls : PClass) (short_permission : String)
    (include_app_label : Bool) : String :=
  (if include_app_label then cls.app_label ++ "." else "")
    ++ short_permission ++ "_" ++ cls.model_name

/-- `ShortPermsMixin.get_permission_codenames`: maps
`get_permission_codename` over a list of short codes. -/
def PClass.get_permission_codenames (cls : PClass) (short_permissions : List String)
    (include_app_label : Bool) : List String :=
  short_permissions.map (fun sp => cls.get_permission_codename sp include_app_label)

/-! ## PermDef (`permissible/perm_def.py`)

An application object, as seen by `PermDef`, carries its primary key (`pk`;
`none` or `0` is Python-falsy, i.e. no persisted identity), its model class
and the named methods used when `obj_getter` / `condition_checker` is given
as a string (`getattr(obj, name)(...)` dispatch). -/

/-- An object passed to `PermDef.check_obj` / produced by `PermDef.get_obj`. -/
inductive PObj (U C : Type) where
  | mk (pk : Option Nat) (cls : PClass)
      (getterMethods : String → C → Option (PObj U C))
      (condMethods : String → U → C → Bool)

/-- Primary key of an object. -/
def PObj.pk {U C : Type} : PObj U C → Option Nat
  | .mk pk _ _ _ => pk

/-- Model class of an object (`obj.__class__`). -/
def PObj.cls {U C : Type} : PObj U C → PClass
  | .mk _ cls _ _ => cls

/-- String-named object-getter method dispatch (`getattr(obj, name)(context)`). -/
def PObj.getterMethods {U C : Type} : PObj U C → String → C → Option (PObj U C)
  | .mk _ _ g _ => g

/-- String-named condition-checker method dispatch
(`getattr(obj, name)(user, context)`). -/
def PObj.condMethods {U C : Type} : PObj U C → String → U → C → Bool
  | .mk _ _ _ c => c

/-- Python truthiness of `not obj or not obj.pk`: the resolved target is
missing, or it has no persisted identity (pk absent or zero). -/
def objMissingOrNoPk {U C : Type} : Option (PObj U C) → Bool
  | none => true
  | some o =>
    match o.pk with
    | none => true
    | some n => n == 0

/-- `PermDef.obj_getter`: either a two-argument callable or the name of a
method on the object. -/
inductive ObjGetter (U C : Type) where
  | func (f : Option (PObj U C) → C → Option (PObj U C))
  | method (name : String)

/-- `PermDef.condition_checker`: either a three-argument callable or the name
of a method on the object. -/
inductive CondChecker (U C : Type) where
  | func (f : Option (PObj U C) → U → C → Bool)
  | method (name : String)

/-- The `PermDef` rule data (`permissible/perm_def.py`): required short
permission codes (`none` means no permission-code requirement), an optional
target resolver and an optional extra condition. -/
structure PermDefS (U C : Type) where
  short_perm_codes : Option (List String)
  obj_getter : Option (ObjGetter U C)
  condition_checker : Option (CondChecker U C)

/-- `PermDef.get_obj`: resolve the object against which permissions are
checked. A string getter requires an object (`assert obj`, modelled as an
error); a callable getter receives `(obj, context)`; with no getter the
original object is returned. -/
def PermDefS.get_obj {U C : Type} (pd : PermDefS U C) (obj : Option (PObj U C))
    (context : C) : Except String (Option (PObj U C)) :=
  match pd.obj_getter with
  | some (.method name) =>
    match obj with
    | none => .error "Object must be provided to get object from"
    | some o => .ok (o.getterMethods name context)
  | some (.func f) => .ok (f obj context)
  | none => .ok obj

/-- `PermDef.check_condition`: no checker passes by default; a string checker
dispatches on the object (an absent object makes `getattr` fail, modelled as
an error); a callable checker receives `(obj, user, context)`. -/
def PermDefS.check_condition {U C : Type} (pd : PermDefS U C)
    (obj : Option (PObj U C)) (user : U) (context : C) : Except String Bool :=
  match pd.condition_checker with
  | none => .ok true
  | some (.method name) =>
    match obj with
    | none => .error "AttributeError"
    | some o => .ok (o.condMethods name user context)
  | some (.func f) => .ok (f obj user context)

/-- `PermDef._check`. `has_perms` is the external
`user.has_perms(perms, obj)` oracle of the user passed in. After resolving
the target, an object-granularity check fails when the target is missing or
has no pk; then the condition and (when `short_perm_codes` is set) the fully
qualified permission codes are both required. -/
def PermDefS.check' {U C : Type} (pd : PermDefS U C)
    (has_perms : List String → Option (PObj U C) → Bool)
    (must_check_obj : Bool) (obj : Option (PObj U C)) (obj_class : PClass)
    (user : U) (context : C) : Except String Bool :=
  match pd.get_obj obj context with
  | .error e => .error e
  | .ok obj =>
    if must_check_obj && objMissingOrNoPk obj then .ok false
    else
      match pd.check_condition obj user context with
      | .error e => .error e
      | .ok obj_check_passes =>
        let has_perms_res :=
          match pd.short_perm_codes with
          | none => true
          | some codes => has_perms (obj_class.get_permission_codenames codes true) obj
        .ok (has_perms_res && obj_check_passes)

/-- `PermDef.check_global`: class-granularity check (no object, no pk
requirement). -/
def PermDefS.check_global {U C : Type} (pd : PermDefS U C)
    (has_perms : List String → Option (PObj U C) → Bool)
    (obj_class : PClass) (user : U) (context : C) : Except String Bool :=
  pd.check' has_perms false none obj_class user context

/-- `PermDef.check_obj`: object-granularity check against `obj` and
`obj.__class__`. -/
def PermDefS.check_obj {U C : Type} (pd : PermDefS U C)
    (has_perms : List String → Option (PObj U C) → Bool)
    (obj : PObj U C) (user : U) (context : C) : Except String Bool :=
  pd.check' has_perms true (some obj) obj.cls user context

/-- The `p` shorthand used by `permissible/perm_def/defaults.py`; every call
site in the repository applies it exactly like the `PermDef` constructor
(`p(short_perm_codes, obj_getter=..., condition_checker=...)`). -/
def p {U C : Type} (short_perm_codes : Option (List String)) : PermDefS U C :=
  ⟨short_perm_codes, none, none⟩

/-- `DENY_ALL = p(None)` from `permissible/perm_def/defaults.py`. -/
def DENY_ALL {U C : Type} : PermDefS U C := p none

/-- `ALLOW_ALL = p([])` from `permissible/perm_def/defaults.py`. -/
def ALLOW_ALL {U C : Type} : PermDefS U C := p (some [])

/-! ## CompositePermDef (`permissible/perm_def/composite.py`)

`CompositePermDef` delegates to child perm defs through their
`check_global` / `check_obj` interface only, so a child is modelled by its
two check methods (a leaf), and a composite by its child list and operator. -/

/-- The composite operator; the constructor rejects anything else
(`ValueError`). -/
inductive CompOperator where
  | and
  | or
deriving DecidableEq

/-- A `PermDef`-like value as consumed by `CompositePermDef`: a leaf is an
arbitrary perm def given by its two check methods; `composite` holds the
`perm_defs` child list and the `operator`. -/
inductive PermTree (Cls Obj U C : Type) where
  | leaf (checkGlobal : Cls → U → C → Bool) (checkObj : Obj → U → C → Bool)
  | composite (perm_defs : List (PermTree Cls Obj U C)) (operator : CompOperator)

mutual

/-- `CompositePermDef.check_global`: with operator `or`, `any(...)` over the
children; with `and`, `all(...)` (a leaf runs its own check). -/
def PermTree.check_global {Cls Obj U C : Type} :
    PermTree Cls Obj U C → Cls → U → C → Bool
  | .leaf g _, obj_class, user, context => g obj_class user context
  | .composite perm_defs .or, obj_class, user, context =>
    PermTree.anyGlobal perm_defs obj_class user context
  | .composite perm_defs .and, obj_class, user, context =>
    PermTree.allGlobal perm_defs obj_class user context

/-- Python `any(perm.check_global(...) for perm in perm_defs)` (short-circuit). -/
def PermTree.anyGlobal {Cls Obj U C : Type} :
    List (PermTree Cls Obj U C) → Cls → U → C → Bool
  | [], _, _, _ => false
  | pd :: rest, obj_class, user, context =>
    pd.check_global obj_class user context || PermTree.anyGlobal rest obj_class user context

/-- Python `all(perm.check_global(...) for perm in perm_defs)` (short-circuit). -/
def PermTree.allGlobal {Cls Obj U C : Type} :
    List (PermTree Cls Obj U C) → Cls → U → C → Bool
  | [], _, _, _ => true
  | pd :: rest, obj_class, user, context =>
    pd.check_global obj_class user context && PermTree.allGlobal rest obj_class user context

end

mutual

/-- `CompositePermDef.check_obj`: with operator `or`, `any(...)` over the
children; with `and`, `all(...)` (a leaf runs its own check). -/
def PermTree.check_obj {Cls Obj U C : Type} :
    PermTree Cls Obj U C → Obj → U → C → Bool
  | .leaf _ f, obj, user, context => f obj user context
  | .composite perm_defs .or, obj, user, context =>
    PermTree.anyObj perm_defs obj user context
  | .composite perm_defs .and, obj, user, context =>
    PermTree.allObj perm_defs obj user context

/-- Python `any(perm.check_obj(...) for perm in perm_defs)` (short-circuit). -/
def PermTree.anyObj {Cls Obj U C : Type} :
    List (PermTree Cls Obj U C) → Obj → U → C → Bool
  | [], _, _, _ => false
  | pd :: rest, obj, user, context =>
    pd.check_obj obj user context || PermTree.anyObj rest obj user context

/-- Python `all(perm.check_obj(...) for perm in perm_defs)` (short-circuit). -/
def PermTree.allObj {Cls Obj U C : Type} :
    List (PermTree Cls Obj U C) → Obj → U → C → Bool
  | [], _, _, _ => true
  | pd :: rest, obj, user, context =>
    pd.check_obj obj user context && PermTree.allObj rest obj user context

end

/-- A child whose check result is a fixed boolean, used to instantiate the
composite over an assignment of booleans to children. -/
def PermTree.constLeaf {Cls Obj U C : Type} (b : Bool) : PermTree Cls Obj U C :=
  .leaf (fun _ _ _ => b) (fun _ _ _ => b)

/-! ## PermissibleMixin (`permissible/models/permissible_mixin.py`)

At this layer the individual `PermDef`s are opaque (type parameter `PD`);
what is in view is the map lookup, the superuser bypass, the
`NotImplementedError` guard, the root resolution and the ANY/ALL loop over
the perm defs of the action. A perm def evaluation is given by an oracle
`PD → Bool` (closing over user, context and the resolved root), and each
result also carries the number of perm-def checks that were invoked. -/

/-- `perm_def_mode`: `"ANY"` or `"ALL"`. -/
inductive PermDefMode where
  | any
  | all
deriving DecidableEq

/-- Exceptions raised by the mixin entry points. -/
inductive PermError where
  | notImplemented
  | assertionError
deriving DecidableEq

/-- The user argument (`user and user.is_superuser`); the checks receive an
optional (possibly anonymous-falsy) user carrying its `is_superuser` flag. -/
structure MUser where
  is_superuser : Bool
deriving DecidableEq

/-- Python truthiness of `user and user.is_superuser`. -/
def userIsSuperuser : Option MUser → Bool
  | none => false
  | some u => u.is_superuser

/-- A model class with its two action perm maps and its perm-def mode;
`root_class_resolves` models the truthiness of `get_room_perm_class()`
(the default returns `cls`, which is always truthy). -/
structure PermModel (PD : Type) where
  global_action_perm_map : List (String × List PD)
  obj_action_perm_map : List (String × List PD)
  perm_def_mode : PermDefMode
  root_class_resolves : Bool

/-- `dict.get(action, None)` on an action perm map. -/
def lookupAction {PD : Type} (perm_map : List (String × List PD)) (action : String) :
    Option (List PD) :=
  (perm_map.find? (fun e => e.1 == action)).map (fun e => e.2)

/-- The shared perm-def loop of `has_global_permission` and
`check_perm_defs_on_obj`: in ALL mode a failing check returns false and in
ANY mode a passing check returns true, both immediately; an exhausted loop
returns true in ALL mode and false in ANY mode. The second component counts
the perm-def checks invoked. -/
def runPermDefLoop {PD : Type} (mode : PermDefMode) (check : PD → Bool) :
    List PD → Bool × Nat
  | [] =>
    (match mode with
     | .all => true
     | .any => false, 0)
  | pd :: rest =>
    let check_passes := check pd
    match mode with
    | .all =>
      if !check_passes then (false, 1)
      else
        let r := runPermDefLoop mode check rest
        (r.1, r.2 + 1)
    | .any =>
      if check_passes then (true, 1)
      else
        let r := runPermDefLoop mode check rest
        (r.1, r.2 + 1)

/-- `PermissibleMixin.has_global_permission`: superuser bypass, then map
lookup (an absent action returns true), then the root-class assertion, then
the perm-def loop with `check_global` (given here as the oracle
`checkGlobal`). -/
def has_global_permission {PD : Type} (m : PermModel PD) (user : Option MUser)
    (action : String) (checkGlobal : PD → Bool) : Except PermError Bool × Nat :=
  if userIsSuperuser user then (.ok true, 0)
  else
    match lookupAction m.global_action_perm_map action with
    | none => (.ok true, 0)
    | some perm_defs =>
      if !m.root_class_resolves then (.error .assertionError, 0)
      else
        let r := runPermDefLoop m.perm_def_mode checkGlobal perm_defs
        (.ok r.1, r.2)

/-- `PermissibleMixin.has_object_permission`: the `NotImplementedError` guard
when both perm maps are empty, then the superuser bypass, then map lookup
(an absent action returns true), then root-object resolution
(`root_obj_exists` is the truthiness of `get_root_perm_object(context)`; a
falsy root fails the check), then the perm-def loop with `check_obj` (the
oracle `checkObj`). -/
def has_object_permission {PD : Type} (m : PermModel PD) (user : Option MUser)
    (action : String) (root_obj_exists : Bool) (checkObj : PD → Bool) :
    Except PermError Bool × Nat :=
  if m.global_action_perm_map.isEmpty && m.obj_action_perm_map.isEmpty then
    (.error .notImplemented, 0)
  else if userIsSuperuser user then (.ok true, 0)
  else
    match lookupAction m.obj_action_perm_map action with
    | none => (.ok true, 0)
    | some perm_defs =>
      if !root_obj_exists then (.ok false, 0)
      else
        let r := runPermDefLoop m.perm_def_mode checkObj perm_defs
        (.ok r.1, r.2)

/-! ## RBAC reconciliation (`permissible/models/utils/update.py`,
`permissible/models/role_based/core.py`)

The external djangoguardian permission store is modelled as a finite set of
triples `(codename, group_id, object_pk)`; `get_group_perms`, `assign_perm`
and `remove_perm` act on it. -/

/-- One object-level grant in the external permission store. -/
abbrev PermTriple := String × Nat × Nat

/-- The external permission-assignment store. -/
abbrev PermStore := Finset PermTriple

/-- `get_permission_codenames(short_perm_codes, include_app_label=False)` as
a set, for the domain class with the given `model_name` (the
`expected_perms` of `update_permissions_for_object`). -/
def expectedPerms (model_name : String) (short_perm_codes : List String) :
    Finset String :=
  (short_perm_codes.map (fun sp => sp ++ "_" ++ model_name)).toFinset

/-- `set(get_group_perms(group, obj))`: the codenames currently granted to
group `gid` on object `objId`. -/
def groupObjPerms (s : PermStore) (gid objId : Nat) : Finset String :=
  (s.filter (fun t => t.2.1 = gid ∧ t.2.2 = objId)).image (fun t => t.1)

/-- Result of one `update_permissions_for_object` call: the new store and
the sets of codenames that were assigned / revoked. -/
structure UpdateResult where
  perms : PermStore
  added : Finset String
  removed : Finset String

/-- `update_permissions_for_object(obj, group, short_perm_codes)`
(`permissible/models/utils/update.py`): computes
`permissions_to_add = expected - current` and
`permissions_to_remove = current - expected` and applies exactly those
deltas via `assign_perm` / `remove_perm`. -/
def update_permissions_for_object (s : PermStore) (gid objId : Nat)
    (model_name : String) (short_perm_codes : List String) : UpdateResult :=
  let expected_perms := expectedPerms model_name short_perm_codes
  let current_perms := groupObjPerms s gid objId
  let permissions_to_add := expected_perms \ current_perms
  let permissions_to_remove := current_perms \ expected_perms
  { perms :=
      (s \ permissions_to_remove.image (fun perm => (perm, gid, objId)))
        ∪ permissions_to_add.image (fun perm => (perm, gid, objId)),
    added := permissions_to_add,
    removed := permissions_to_remove }

/-- `clear_permissions_for_class(group, obj_class)` (imported by
`role_based/core.py`; its module is not part of the snapshot). Modelled from
the spec: it removes every grant the group holds on objects of the class,
ahead of a full reassignment. In this store all tracked objects belong to
the domain class, so it drops every triple of the group. -/
def clear_permissions_for_class (s : PermStore) (gid : Nat) : PermStore :=
  s.filter (fun t => ¬t.2.1 = gid)

/-- The loop body of `reset_permissions_for_group`: one
`update_permissions_for_object` call, accumulating the operation count. -/
def updateStep (gid : Nat) (model_name : String) (short_perm_codes : List String)
    (acc : PermStore × Nat) (objId : Nat) : PermStore × Nat :=
  let r := update_permissions_for_object acc.1 gid objId model_name short_perm_codes
  (r.perms, acc.2 + r.added.card + r.removed.card)

/-- `PermRole.reset_permissions_for_group(clear_existing)`: optionally clear,
then reconcile the group against the short codes of `ROLE_DEFINITIONS[role]`
on every permission target of the owning domain (`targets`, the pks produced
by `root_obj.get_permission_targets()`). Returns the new store and the total
number of grant/revoke operations performed. -/
def reset_permissions_for_group (s : PermStore) (gid : Nat) (model_name : String)
    (short_perm_codes : List String) (clear_existing : Bool) (targets : List Nat) :
    PermStore × Nat :=
  let s0 := if clear_existing then clear_permissions_for_class s gid else s
  targets.foldl (updateStep gid model_name short_perm_codes) (s0, 0)

/-- A role definition entry of `PermRole.ROLE_DEFINITIONS`:
role code, label, and short permission codes for the associated group. -/
abbrev RoleDef := String × String × List String

/-- `PermRole.ROLE_DEFINITIONS` (`role_based/core.py`). -/
def ROLE_DEFINITIONS : List RoleDef :=
  [("mem", "Member", []),
   ("view", "Viewer", ["view"]),
   ("con", "Contributor", ["view", "add_on", "change_on", "change"]),
   ("adm", "Admin", ["view", "add_on", "change_on", "change", "change_permission"]),
   ("own", "Owner",
     ["view", "add_on", "change_on", "change", "change_permission", "delete"])]

/-- The PermRole rows of one domain plus the permission store and the group
id the auth backend would hand out next (fresh Group creation). -/
structure RBACState where
  roleRows : List (String × Nat)
  perms : PermStore
  nextGroupId : Nat

/-- The loop body of `reset_perm_groups`, the `get_or_create` of one role:
an existing `PermRole` row is forced through
`reset_permissions_for_group(clear_existing=True)`; a created row runs
`PermRole.save`, which creates a fresh `Group` and then runs
`reset_permissions_for_group()`. -/
def roleStep (model_name : String) (domainId : Nat) (st : RBACState) (rd : RoleDef) :
    RBACState :=
  match st.roleRows.find? (fun row => row.1 == rd.1) with
  | some row =>
    let r := reset_permissions_for_group st.perms row.2 model_name rd.2.2 true
      [domainId]
    { st with perms := r.1 }
  | none =>
    let gid := st.nextGroupId
    let r := reset_permissions_for_group st.perms gid model_name rd.2.2 false
      [domainId]
    { roleRows := st.roleRows ++ [(rd.1, gid)], perms := r.1,
      nextGroupId := gid + 1 }

/-- `PermDomain.reset_perm_groups()` for a non-hierarchical domain (its
`get_permission_targets()` yields only the domain itself, pk `domainId`):
one `get_or_create` per role of the role fields choices (the keys of
`ROLE_DEFINITIONS`, in order). -/
def reset_perm_groups (roleDefs : List RoleDef) (model_name : String)
    (domainId : Nat) (st : RBACState) : RBACState :=
  roleDefs.foldl (roleStep model_name domainId) st

/-- `PermDomain.save()` of a fresh domain (`self._state.adding` true): after
the row insert it runs `reset_perm_groups()`. -/
def permDomainFreshSave (roleDefs : List RoleDef) (model_name : String)
    (domainId : Nat) (perms0 : PermStore) (nextGroupId : Nat) : RBACState :=
  reset_perm_groups roleDefs model_name domainId ⟨[], perms0, nextGroupId⟩

/-! ## Hierarchical domains (`permissible/models/hierarchical_perm_root.py`) -/

/-- A node of the hierarchical forest as traversed by
`get_permission_targets` (its pk and its `children` rows). -/
inductive HTree where
  | node (pk : Nat) (children : List HTree)

/-- Pk of a node. -/
def HTree.pkOf : HTree → Nat
  | .node pk _ => pk

/-- Children of a node. -/
def HTree.childrenOf : HTree → List HTree
  | .node _ children => children

mutual

/-- `HierarchicalPermRoot.get_permission_targets()`: yield the node itself,
then recursively the permission targets of every direct child. -/
def HTree.get_permission_targets : HTree → List Nat
  | .node pk children => pk :: HTree.targetsOfChildren children

/-- The `for child in self.children.all(): yield from ...` part of
`get_permission_targets`. -/
def HTree.targetsOfChildren : List HTree → List Nat
  | [] => []
  | child :: rest =>
    child.get_permission_targets ++ HTree.targetsOfChildren rest

end

mutual

/-- Number of nodes of a subtree. -/
def HTree.size : HTree → Nat
  | .node _ children => 1 + HTree.sizeOfChildren children

/-- Total node count of a list of subtrees. -/
def HTree.sizeOfChildren : List HTree → Nat
  | [] => 0
  | child :: rest => child.size + HTree.sizeOfChildren rest

end

/-- The persisted rows of a hierarchical domain table: `(pk, parent_id)`. -/
abbrev HDb := List (Nat × Option Nat)

/-- `cls.objects.filter(pk=i).values_list("parent_id", flat=True).first()`:
`none` both for a missing row and for a null parent. -/
def firstParentId (db : HDb) (i : Nat) : Option Nat :=
  match db.find? (fun row => row.1 == i) with
  | some row => row.2
  | none => none

/-- `HierarchicalPermRoot.get_ancestor_ids_from_id`: walk up the chain of
`parent_id` single-column lookups, collecting ids while the current id is
truthy. The source loop terminates exactly on acyclic chains; the fuel
argument bounds the walk (the wrapper below supplies enough fuel for any
acyclic chain of the table). -/
def get_ancestor_ids_from_id (db : HDb) : Nat → Option Nat → Finset Nat
  | 0, _ => ∅
  | _, none => ∅
  | fuel + 1, some current_id =>
    if current_id = 0 then ∅
    else insert current_id (get_ancestor_ids_from_id db fuel (firstParentId db current_id))

/-- Ancestor-id set from a starting parent id, with enough fuel to cover any
acyclic chain of the table. -/
def ancestorIdsFrom (db : HDb) (parent_id : Option Nat) : Finset Nat :=
  get_ancestor_ids_from_id db (db.length + 1) parent_id

/-- `super().save(...)`: persist the row (update it in place, or append a
new row). -/
def dbSave (db : HDb) (pk : Nat) (parent_id : Option Nat) : HDb :=
  if db.any (fun row => row.1 == pk) then
    db.map (fun row => if row.1 == pk then (pk, parent_id) else row)
  else db ++ [(pk, parent_id)]

/-- The `old_parent_id` computed at the top of `HierarchicalPermRoot.save`:
only a truthy `self.pk` triggers the DB read. -/
def old_parent_of (db : HDb) (pk : Option Nat) : Option Nat :=
  match pk with
  | some pkv => if pkv = 0 then none else firstParentId db pkv
  | none => none

/-- `HierarchicalPermRoot.save(...)`: read the persisted `parent_id`, save,
and when the parent changed compute both ancestor chains on the saved table,
assert their symmetric difference non-empty and reset every domain in the
difference. Returns the saved table and the set of pks whose
`reset_perm_groups()` was re-run; the failed assertion is an error. -/
def hierarchicalSave (db : HDb) (pk : Option Nat) (selfId : Nat)
    (parent_id : Option Nat) : Except String (HDb × Finset Nat) :=
  let old_parent_id := old_parent_of db pk
  let db2 := dbSave db selfId parent_id
  if old_parent_id ≠ parent_id then
    let old_ancestor_ids := ancestorIdsFrom db2 old_parent_id
    let new_ancestor_ids := ancestorIdsFrom db2 parent_id
    let diff_ids :=
      (old_ancestor_ids \ new_ancestor_ids) ∪ (new_ancestor_ids \ old_ancestor_ids)
    if diff_ids = ∅ then .error "assert diff_ids"
    else .ok (db2, diff_ids)
  else .ok (db2, ∅)

/-! ## Theorems -/

/-- C1, counterexample: for a model class whose perm maps contain
`retrieve` but not `destroy`, a non-superuser request for the absent
`destroy` action makes both `has_global_permission` and
`has_object_permission` return true with no perm def consulted — neither
call raises a configuration error, refuting the claim that an absent policy
entry raises/asserts. -/
theorem c1_absent_action_counterexample :
    has_global_permission
        (⟨[("retrieve", [()])], [("retrieve", [()])], .any, true⟩ : PermModel Unit)
        (some ⟨false⟩) "destroy" (fun _ => false) = (.ok true, 0)
    ∧ has_object_permission
        (⟨[("retrieve", [()])], [("retrieve", [()])], .any, true⟩ : PermModel Unit)
        (some ⟨false⟩) "destroy" true (fun _ => false) = (.ok true, 0)
    ∧ (Except.ok true : Except PermError Bool) ≠ .error .notImplemented
    ∧ (Except.ok true : Except PermError Bool) ≠ .error .assertionError := by
  decide

/-- C1, amended: for every model class and user, if the requested action has
no entry in the policy map (the global map for `has_global_permission`, the
object map for `has_object_permission`), the call grants permission
automatically — it returns true without invoking any perm def and without
raising (for the object call, provided the perm maps are not both empty,
which is the separate `NotImplementedError` guard). -/
theorem c1_absent_action_implicit_allow {PD : Type} (m : PermModel PD)
    (user : Option MUser) (action : String) (checkGlobal checkObj : PD → Bool)
    (root_obj_exists : Bool) :
    (lookupAction m.global_action_perm_map action = none →
      has_global_permission m user action checkGlobal = (.ok true, 0))
    ∧ ((m.global_action_perm_map.isEmpty && m.obj_action_perm_map.isEmpty) = false →
      lookupAction m.obj_action_perm_map action = none →
      has_object_permission m user action root_obj_exists checkObj = (.ok true, 0)) := by
  constructor
  · intro h
    unfold has_global_permission
    cases hsu : userIsSuperuser user <;> simp [hsu, h]
  · intro hmaps h
    unfold has_object_permission
    cases hsu : userIsSuperuser user <;> simp [hmaps, hsu, h]

/-- C1, witness for the amended claim at a concrete input: a model whose
maps hold only an `update` entry, asked for `list`. -/
theorem c1_absent_action_implicit_allow_witness :
    has_global_permission
        (⟨[("update", [()])], [("update", [()])], .all, true⟩ : PermModel Unit)
        (some ⟨false⟩) "list" (fun _ => false) = (.ok true, 0)
    ∧ has_object_permission
        (⟨[("update", [()])], [("update", [()])], .all, true⟩ : PermModel Unit)
        (some ⟨false⟩) "list" true (fun _ => false) = (.ok true, 0) :=
  ⟨(c1_absent_action_implicit_allow
      (⟨[("update", [()])], [("update", [()])], .all, true⟩ : PermModel Unit)
      (some ⟨false⟩) "list" (fun _ => false) (fun _ => false) true).1 (by decide),
   (c1_absent_action_implicit_allow
      (⟨[("update", [()])], [("update", [()])], .all, true⟩ : PermModel Unit)
      (some ⟨false⟩) "list" (fun _ => false) (fun _ => false) true).2
      (by decide) (by decide)⟩

/-- C2: the `DENY_ALL` sentinel of `perm_def/defaults.py` is `p(None)` — a
`PermDef` with no permission-code requirement and no condition — and under
`PermDef._check` a `none` code list is vacuously satisfied, so evaluating
`DENY_ALL` yields true, not false: at this concrete failing input (a user
holding no permission at all) both `check_global` on a class and
`check_obj` on a persisted object return true. -/
theorem c2_deny_all_evaluates_true :
    (DENY_ALL (U := Unit) (C := Unit)).check_global (fun _ _ => false)
        ⟨"app", "team"⟩ () () = .ok true
    ∧ (DENY_ALL (U := Unit) (C := Unit)).check_obj (fun _ _ => false)
        (.mk (some 1) ⟨"app", "team"⟩ (fun _ _ => none) (fun _ _ _ => false))
        () () = .ok true := by
  constructor <;> rfl

/-- C5, counterexample: on a model whose two perm maps are both empty, a
superuser does not get true from `has_object_permission` — the call raises
`NotImplementedError` before the superuser bypass. -/
theorem c5_superuser_counterexample :
    has_object_permission (⟨[], [], .any, true⟩ : PermModel Unit) (some ⟨true⟩)
        "retrieve" true (fun _ => false) = (.error .notImplemented, 0)
    ∧ (Except.error PermError.notImplemented : Except PermError Bool)
        ≠ .ok true := by
  decide

/-- C5, amended: for every action, target and context, a user with
`is_superuser` true gets true from `has_global_permission`
unconditionally, and from `has_object_permission` provided the model
defines at least one non-empty perm map (otherwise the
`NotImplementedError` guard fires first); in both cases every configured
perm def may evaluate false (the oracles are arbitrary) and no perm def is
invoked (the invocation count is zero). -/
theorem c5_superuser_bypass {PD : Type} (m : PermModel PD) (u : MUser)
    (action : String) (checkGlobal checkObj : PD → Bool) (root_obj_exists : Bool)
    (hsu : u.is_superuser = true) :
    has_global_permission m (some u) action checkGlobal = (.ok true, 0)
    ∧ ((m.global_action_perm_map.isEmpty && m.obj_action_perm_map.isEmpty) = false →
      has_object_permission m (some u) action root_obj_exists checkObj
        = (.ok true, 0)) := by
  constructor
  · unfold has_global_permission
    simp [userIsSuperuser, hsu]
  · intro hmaps
    unfold has_object_permission
    simp [userIsSuperuser, hmaps, hsu]

/-- C5, witness for the amended claim: a superuser on a model whose every
perm def evaluates false still gets `(ok true, 0)` from both entry
points. -/
theorem c5_superuser_bypass_witness :
    has_global_permission
        (⟨[("retrieve", [()])], [("retrieve", [()])], .any, true⟩ : PermModel Unit)
        (some ⟨true⟩) "retrieve" (fun _ => false) = (.ok true, 0)
    ∧ has_object_permission
        (⟨[("retrieve", [()])], [("retrieve", [()])], .any, true⟩ : PermModel Unit)
        (some ⟨true⟩) "retrieve" true (fun _ => false) = (.ok true, 0) :=
  ⟨(c5_superuser_bypass
      (⟨[("retrieve", [()])], [("retrieve", [()])], .any, true⟩ : PermModel Unit)
      ⟨true⟩ "retrieve" (fun _ => false) (fun _ => false) true rfl).1,
   (c5_superuser_bypass
      (⟨[("retrieve", [()])], [("retrieve", [()])], .any, true⟩ : PermModel Unit)
      ⟨true⟩ "retrieve" (fun _ => false) (fun _ => false) true rfl).2 (by decide)⟩

/-- C10: on every model whose `global_action_perm_map` and
`obj_action_perm_map` are both empty, `has_object_permission` raises
`NotImplementedError` for every user (superusers included, since this guard
precedes the superuser bypass), every action and every context, with no
perm def invoked. -/
theorem c10_empty_maps_not_implemented {PD : Type} (m : PermModel PD)
    (user : Option MUser) (action : String) (root_obj_exists : Bool)
    (checkObj : PD → Bool)
    (hg : m.global_action_perm_map = []) (ho : m.obj_action_perm_map = []) :
    has_object_permission m user action root_obj_exists checkObj
      = (.error .notImplemented, 0) := by
  unfold has_object_permission
  simp [hg, ho]

/-- C10, witness: a superuser on an empty-maps model gets
`NotImplementedError`. -/
theorem c10_empty_maps_not_implemented_witness :
    has_object_permission (⟨[], [], .all, true⟩ : PermModel Unit) (some ⟨true⟩)
        "destroy" true (fun _ => true) = (.error .notImplemented, 0) :=
  c10_empty_maps_not_implemented (⟨[], [], .all, true⟩ : PermModel Unit)
    (some ⟨true⟩) "destroy" true (fun _ => true) rfl rfl

/-- Helper: `anyObj` is `any` of the children's `check_obj` results. -/
theorem anyObj_eq_any {Cls Obj U C : Type} (perm_defs : List (PermTree Cls Obj U C))
    (obj : Obj) (user : U) (context : C) :
    PermTree.anyObj perm_defs obj user context
      = (perm_defs.map (fun pd => pd.check_obj obj user context)).any id := by
  induction perm_defs with
  | nil => rfl
  | cons pd rest ih => simp [PermTree.anyObj, ih]

/-- Helper: `allObj` is `all` of the children's `check_obj` results. -/
theorem allObj_eq_all {Cls Obj U C : Type} (perm_defs : List (PermTree Cls Obj U C))
    (obj : Obj) (user : U) (context : C) :
    PermTree.allObj perm_defs obj user context
      = (perm_defs.map (fun pd => pd.check_obj obj user context)).all id := by
  induction perm_defs with
  | nil => rfl
  | cons pd rest ih => simp [PermTree.allObj, ih]

/-- Helper: `anyGlobal` is `any` of the children's `check_global` results. -/
theorem anyGlobal_eq_any {Cls Obj U C : Type} (perm_defs : List (PermTree Cls Obj U C))
    (obj_class : Cls) (user : U) (context : C) :
    PermTree.anyGlobal perm_defs obj_class user context
      = (perm_defs.map (fun pd => pd.check_global obj_class user context)).any id := by
  induction perm_defs with
  | nil => rfl
  | cons pd rest ih => simp [PermTree.anyGlobal, ih]

/-- Helper: `allGlobal` is `all` of the children's `check_global` results. -/
theorem allGlobal_eq_all {Cls Obj U C : Type} (perm_defs : List (PermTree Cls Obj U C))
    (obj_class : Cls) (user : U) (context : C) :
    PermTree.allGlobal perm_defs obj_class user context
      = (perm_defs.map (fun pd => pd.check_global obj_class user context)).all id := by
  induction perm_defs with
  | nil => rfl
  | cons pd rest ih => simp [PermTree.allGlobal, ih]

/-- C3: for every list of child perm defs, `CompositePermDef` with operator
`or` returns `any` of the children's individual check results and with
operator `and` returns `all` of them, for both `check_obj` and
`check_global`; in particular, for any assignment of booleans `bs` to the
children's results, the composite returns `bs.any` / `bs.all`. -/
theorem c3_composite_or_and {Cls Obj U C : Type} :
    (∀ (perm_defs : List (PermTree Cls Obj U C)) (obj : Obj) (user : U) (context : C),
      (PermTree.composite perm_defs .or).check_obj obj user context
        = (perm_defs.map (fun pd => pd.check_obj obj user context)).any id
      ∧ (PermTree.composite perm_defs .and).check_obj obj user context
        = (perm_defs.map (fun pd => pd.check_obj obj user context)).all id)
    ∧ (∀ (perm_defs : List (PermTree Cls Obj U C)) (obj_class : Cls) (user : U)
        (context : C),
      (PermTree.composite perm_defs .or).check_global obj_class user context
        = (perm_defs.map (fun pd => pd.check_global obj_class user context)).any id
      ∧ (PermTree.composite perm_defs .and).check_global obj_class user context
        = (perm_defs.map (fun pd => pd.check_global obj_class user context)).all id)
    ∧ (∀ (bs : List Bool) (obj : Obj) (user : U) (context : C),
      (PermTree.composite (bs.map PermTree.constLeaf) .or
          : PermTree Cls Obj U C).check_obj obj user context = bs.any id
      ∧ (PermTree.composite (bs.map PermTree.constLeaf) .and
          : PermTree Cls Obj U C).check_obj obj user context = bs.all id) := by
  refine ⟨?_, ?_, ?_⟩
  · intro perm_defs obj user context
    exact ⟨anyObj_eq_any perm_defs obj user context,
      allObj_eq_all perm_defs obj user context⟩
  · intro perm_defs obj_class user context
    exact ⟨anyGlobal_eq_any perm_defs obj_class user context,
      allGlobal_eq_all perm_defs obj_class user context⟩
  · intro bs obj user context
    constructor
    · rw [show (PermTree.composite (bs.map PermTree.constLeaf) .or
          : PermTree Cls Obj U C).check_obj obj user context
          = PermTree.anyObj (bs.map PermTree.constLeaf) obj user context from rfl,
        anyObj_eq_any]
      induction bs with
      | nil => rfl
      | cons b rest ih =>
        simp only [List.map_cons, List.any_cons, id]
        rw [show (PermTree.constLeaf b
          : PermTree Cls Obj U C).check_obj obj user context = b from rfl]
        rw [ih]
    · rw [show (PermTree.composite (bs.map PermTree.constLeaf) .and
          : PermTree Cls Obj U C).check_obj obj user context
          = PermTree.allObj (bs.map PermTree.constLeaf) obj user context from rfl,
        allObj_eq_all]
      induction bs with
      | nil => rfl
      | cons b rest ih =>
        simp only [List.map_cons, List.all_cons, id]
        rw [show (PermTree.constLeaf b
          : PermTree Cls Obj U C).check_obj obj user context = b from rfl]
        rw [ih]

/-- C4: for every `PermDef` — whatever its `short_perm_codes` and
`condition_checker` — and every object, user and context, if the target
resolved by `check_obj` is missing or has no persisted primary key, then
`check_obj` returns false (an `ok` result, not an exception);
`check_global` is not subject to the requirement: with a missing target and
no code requirement it returns true. -/
theorem c4_missing_target_fails_closed {U C : Type} :
    (∀ (pd : PermDefS U C) (has_perms : List String → Option (PObj U C) → Bool)
      (obj : PObj U C) (user : U) (context : C) (target : Option (PObj U C)),
      pd.get_obj (some obj) context = .ok target →
      objMissingOrNoPk target = true →
      pd.check_obj has_perms obj user context = .ok false)
    ∧ (∀ (has_perms : List String → Option (PObj U C) → Bool) (obj_class : PClass)
        (user : U) (context : C),
      (PermDefS.mk none none none : PermDefS U C).check_global has_perms obj_class
        user context = .ok true) := by
  constructor
  · intro pd has_perms obj user context target hres hmissing
    unfold PermDefS.check_obj PermDefS.check'
    rw [hres]
    simp [hmissing]
  · intro has_perms obj_class user context
    rfl

/-- C4, witness: a `PermDef` requiring the `view` code, with an object
getter resolving to no target and a condition that would pass, returns
false from `check_obj` even for a user whose permission oracle grants
everything. -/
theorem c4_missing_target_fails_closed_witness :
    (PermDefS.mk (U := Unit) (C := Unit) (some ["view"])
        (some (.func (fun _ _ => none))) (some (.func (fun _ _ _ => true)))).check_obj
      (fun _ _ => true)
      (.mk (some 1) ⟨"app", "team"⟩ (fun _ _ => none) (fun _ _ _ => true)) () ()
      = .ok false :=
  c4_missing_target_fails_closed.1
    (PermDefS.mk (some ["view"]) (some (.func (fun _ _ => none)))
      (some (.func (fun _ _ _ => true))))
    (fun _ _ => true)
    (.mk (some 1) ⟨"app", "team"⟩ (fun _ _ => none) (fun _ _ _ => true)) () ()
    none rfl rfl

/-- Helper: membership in the concatenated targets of a child list. -/
theorem mem_targetsOfChildren {x : Nat} :
    ∀ (children : List HTree),
      x ∈ HTree.targetsOfChildren children ↔
        ∃ c ∈ children, x ∈ c.get_permission_targets := by
  intro children
  induction children with
  | nil => simp [HTree.targetsOfChildren]
  | cons c rest ih => simp [HTree.targetsOfChildren, List.mem_append, ih]

mutual

/-- Helper: a subtree traversal produces as many entries as the subtree has
nodes (each node exactly once). -/
theorem targets_length_eq_size : ∀ t : HTree,
    t.get_permission_targets.length = t.size
  | .node pk children => by
    simp [HTree.get_permission_targets, HTree.size,
      targetsOfChildren_length_eq_size children]
    omega

/-- Helper: the child-list traversal produces as many entries as the
children subtrees have nodes. -/
theorem targetsOfChildren_length_eq_size : ∀ children : List HTree,
    (HTree.targetsOfChildren children).length = HTree.sizeOfChildren children
  | [] => rfl
  | c :: rest => by
    simp [HTree.targetsOfChildren, HTree.sizeOfChildren,
      targets_length_eq_size c, targetsOfChildren_length_eq_size rest]

end

/-- C8: `get_permission_targets()` of a node yields exactly the node itself
together with the permission targets of every direct child (hence all of
its descendants), each node produced exactly once (the traversal length
equals the node count); in particular for the tree
`1 → 2 → ⟨3, 4⟩`, node 1 yields exactly `⟨1, 2, 3, 4⟩` and node 2 yields
exactly `⟨2, 3, 4⟩`, with no duplicates. -/
theorem c8_permission_targets :
    (∀ (t : HTree) (x : Nat),
      x ∈ t.get_permission_targets ↔
        x = t.pkOf ∨ ∃ c ∈ t.childrenOf, x ∈ c.get_permission_targets)
    ∧ (∀ t : HTree, t.get_permission_targets.length = t.size)
    ∧ (HTree.node 1 [HTree.node 2 [HTree.node 3 [], HTree.node 4 []]]).get_permission_targets
        = [1, 2, 3, 4]
    ∧ (HTree.node 2 [HTree.node 3 [], HTree.node 4 []]).get_permission_targets
        = [2, 3, 4]
    ∧ (HTree.node 1 [HTree.node 2 [HTree.node 3 [], HTree.node 4 []]]).get_permission_targets.Nodup
    ∧ (HTree.node 2 [HTree.node 3 [], HTree.node 4 []]).get_permission_targets.Nodup := by
  refine ⟨?_, targets_length_eq_size, by decide, by decide, by decide, by decide⟩
  intro t x
  cases t with
  | node pk children =>
    simp [HTree.get_permission_targets, HTree.pkOf, HTree.childrenOf,
      mem_targetsOfChildren children]

/-- C9, counterexample: re-saving node 2 with its parent unchanged (still
node 1) does not raise the no-diff assertion — the parent-change branch is
skipped entirely, the save succeeds and no ancestor is reset. -/
theorem c9_same_parent_counterexample :
    hierarchicalSave [(1, none), (2, some 1)] (some 2) 2 (some 1)
        = .ok ([(1, none), (2, some 1)], ∅)
    ∧ hierarchicalSave [(1, none), (2, some 1)] (some 2) 2 (some 1)
        ≠ .error "assert diff_ids" := by
  decide

/-- C9, amended: a save whose persisted parent id equals the new parent id
skips the ancestor-diff logic entirely — it succeeds with no assertion and
resets no ancestor; on a save whose parent id actually changed, the
non-empty-diff assertion raises exactly when the old and new ancestor-id
chains have an empty symmetric difference, and otherwise the save succeeds,
resetting precisely the domains in the symmetric difference. -/
theorem c9_parent_change_assertion (db : HDb) (pk : Option Nat) (selfId : Nat)
    (parent_id : Option Nat) :
    (old_parent_of db pk = parent_id →
      hierarchicalSave db pk selfId parent_id
        = .ok (dbSave db selfId parent_id, ∅))
    ∧ (old_parent_of db pk ≠ parent_id →
      (ancestorIdsFrom (dbSave db selfId parent_id) (old_parent_of db pk)
          \ ancestorIdsFrom (dbSave db selfId parent_id) parent_id)
        ∪ (ancestorIdsFrom (dbSave db selfId parent_id) parent_id
          \ ancestorIdsFrom (dbSave db selfId parent_id) (old_parent_of db pk)) = ∅ →
      hierarchicalSave db pk selfId parent_id = .error "assert diff_ids")
    ∧ (old_parent_of db pk ≠ parent_id →
      (ancestorIdsFrom (dbSave db selfId parent_id) (old_parent_of db pk)
          \ ancestorIdsFrom (dbSave db selfId parent_id) parent_id)
        ∪ (ancestorIdsFrom (dbSave db selfId parent_id) parent_id
          \ ancestorIdsFrom (dbSave db selfId parent_id) (old_parent_of db pk)) ≠ ∅ →
      hierarchicalSave db pk selfId parent_id
        = .ok (dbSave db selfId parent_id,
            (ancestorIdsFrom (dbSave db selfId parent_id) (old_parent_of db pk)
                \ ancestorIdsFrom (dbSave db selfId parent_id) parent_id)
              ∪ (ancestorIdsFrom (dbSave db selfId parent_id) parent_id
                \ ancestorIdsFrom (dbSave db selfId parent_id)
                    (old_parent_of db pk)))) := by
  refine ⟨?_, ?_, ?_⟩
  · intro h
    unfold hierarchicalSave
    simp [h]
  · intro h1 h2
    unfold hierarchicalSave
    simp [h1, h2]
  · intro h1 h2
    unfold hierarchicalSave
    simp [h1, h2]

/-- C9, witness for the amended claim: a no-op re-save of node 3 under its
current parent 7 succeeds with no resets; a save whose old parent id is the
falsy 0 (so both ancestor chains are empty) while the new parent is null
trips the assertion; and moving node 2 out from under node 1 to the top
level succeeds without raising, resetting exactly the old ancestor,
node 1. -/
theorem c9_parent_change_assertion_witness :
    hierarchicalSave [(7, none), (3, some 7)] (some 3) 3 (some 7)
        = .ok (dbSave [(7, none), (3, some 7)] 3 (some 7), ∅)
    ∧ hierarchicalSave [(5, some 0)] (some 5) 5 none = .error "assert diff_ids"
    ∧ hierarchicalSave [(1, none), (2, some 1)] (some 2) 2 none
        = .ok ([(1, none), (2, none)], {1}) :=
  ⟨(c9_parent_change_assertion [(7, none), (3, some 7)] (some 3) 3 (some 7)).1
      (by decide),
   (c9_parent_change_assertion [(5, some 0)] (some 5) 5 none).2.1
      (by decide) (by decide),
   ((c9_parent_change_assertion [(1, none), (2, some 1)] (some 2) 2 none).2.2
      (by decide) (by decide)).trans (by decide)⟩

/-- Helper: a codename is among the grants of `(gid, objId)` exactly when
its triple is in the store. -/
theorem mem_groupObjPerms {s : PermStore} {gid objId : Nat} {perm : String} :
    perm ∈ groupObjPerms s gid objId ↔ (perm, gid, objId) ∈ s := by
  unfold groupObjPerms
  simp only [Finset.mem_image, Finset.mem_filter]
  constructor
  · rintro ⟨⟨q, g2, o2⟩, ⟨hmem, hg, ho⟩, hq⟩
    simp only at hg ho hq
    subst hg; subst ho; subst hq
    exact hmem
  · intro h
    exact ⟨(perm, gid, objId), ⟨h, rfl, rfl⟩, rfl⟩

/-- Helper: membership in the store produced by one
`update_permissions_for_object` call. -/
theorem mem_update_perms {s : PermStore} {gid objId : Nat} {model_name : String}
    {short_perm_codes : List String} {q : String} {g2 o2 : Nat} :
    (q, g2, o2) ∈
        (update_permissions_for_object s gid objId model_name short_perm_codes).perms
      ↔ (((q, g2, o2) ∈ s
            ∧ ¬(g2 = gid ∧ o2 = objId ∧ q ∈ groupObjPerms s gid objId
                ∧ q ∉ expectedPerms model_name short_perm_codes))
          ∨ (g2 = gid ∧ o2 = objId ∧ q ∈ expectedPerms model_name short_perm_codes
              ∧ q ∉ groupObjPerms s gid objId)) := by
  unfold update_permissions_for_object
  simp only [Finset.mem_union, Finset.mem_sdiff, Finset.mem_image, Prod.mk.injEq]
  constructor
  · rintro (⟨hmem, hnr⟩ | ⟨a, ⟨hae, hac⟩, ha, hg, ho⟩)
    · refine Or.inl ⟨hmem, ?_⟩
      rintro ⟨hg, ho, hcur, hexp⟩
      exact hnr ⟨q, ⟨hcur, hexp⟩, rfl, hg.symm, ho.symm⟩
    · subst ha
      exact Or.inr ⟨hg.symm, ho.symm, hae, hac⟩
  · rintro (⟨hmem, hno⟩ | ⟨hg, ho, hexp, hcur⟩)
    · refine Or.inl ⟨hmem, ?_⟩
      rintro ⟨a, ⟨hac, hae⟩, ha, hg2, ho2⟩
      subst ha
      exact hno ⟨hg2.symm, ho2.symm, hac, hae⟩
    · exact Or.inr ⟨q, ⟨hexp, hcur⟩, rfl, hg.symm, ho.symm⟩

/-- Helper: after `update_permissions_for_object`, the group holds on the
target exactly the expected codenames. -/
theorem groupObjPerms_update_self {s : PermStore} {gid objId : Nat}
    {model_name : String} {short_perm_codes : List String} :
    groupObjPerms
        (update_permissions_for_object s gid objId model_name short_perm_codes).perms
        gid objId
      = expectedPerms model_name short_perm_codes := by
  ext q
  rw [mem_groupObjPerms, mem_update_perms]
  rw [← mem_groupObjPerms (s := s)]
  by_cases hcur : q ∈ groupObjPerms s gid objId <;>
    by_cases hexp : q ∈ expectedPerms model_name short_perm_codes <;>
    simp [hcur, hexp]

/-- Helper: `update_permissions_for_object` leaves every other
`(group, object)` pair untouched. -/
theorem groupObjPerms_update_other {s : PermStore} {gid objId : Nat}
    {model_name : String} {short_perm_codes : List String} {g2 o2 : Nat}
    (h : ¬(g2 = gid ∧ o2 = objId)) :
    groupObjPerms
        (update_permissions_for_object s gid objId model_name short_perm_codes).perms
        g2 o2
      = groupObjPerms s g2 o2 := by
  ext q
  rw [mem_groupObjPerms, mem_update_perms, @mem_groupObjPerms s g2 o2 q]
  constructor
  · rintro (⟨hmem, _⟩ | ⟨hg, ho, _, _⟩)
    · exact hmem
    · exact absurd ⟨hg, ho⟩ h
  · intro hmem
    exact Or.inl ⟨hmem, fun hc => h ⟨hc.1, hc.2.1⟩⟩

/-- Helper: when the group already holds exactly the expected codenames on
the target, `update_permissions_for_object` performs no operation and keeps
the store unchanged. -/
theorem update_fixed {s : PermStore} {gid objId : Nat} {model_name : String}
    {short_perm_codes : List String}
    (h : groupObjPerms s gid objId = expectedPerms model_name short_perm_codes) :
    update_permissions_for_object s gid objId model_name short_perm_codes
      = ⟨s, ∅, ∅⟩ := by
  unfold update_permissions_for_object
  rw [h]
  simp

/-- Helper: after folding `updateStep` over a target list, the group holds
on each visited target exactly the expected codenames, and on unvisited
objects whatever it held before. -/
theorem foldl_updateStep_self (gid : Nat) (model_name : String)
    (short_perm_codes : List String) :
    ∀ (targets : List Nat) (acc : PermStore × Nat) (t : Nat),
      groupObjPerms
          (targets.foldl (updateStep gid model_name short_perm_codes) acc).1 gid t
        = if t ∈ targets then expectedPerms model_name short_perm_codes
          else groupObjPerms acc.1 gid t := by
  intro targets
  induction targets with
  | nil => intro acc t; simp
  | cons t0 rest ih =>
    intro acc t
    rw [List.foldl_cons, ih]
    by_cases ht : t ∈ rest
    · simp [ht, List.mem_cons]
    · by_cases ht0 : t = t0
      · subst ht0
        simp [ht, List.mem_cons, updateStep, groupObjPerms_update_self]
      · have hne : ¬(gid = gid ∧ t = t0) := fun hc => ht0 hc.2
        simp [ht, ht0, List.mem_cons, updateStep, groupObjPerms_update_other hne]

/-- Helper: folding `updateStep` never touches the grants of another
group. -/
theorem foldl_updateStep_other (gid : Nat) (model_name : String)
    (short_perm_codes : List String) :
    ∀ (targets : List Nat) (acc : PermStore × Nat) (g2 o2 : Nat), g2 ≠ gid →
      groupObjPerms
          (targets.foldl (updateStep gid model_name short_perm_codes) acc).1 g2 o2
        = groupObjPerms acc.1 g2 o2 := by
  intro targets
  induction targets with
  | nil => intro acc g2 o2 _; rfl
  | cons t0 rest ih =>
    intro acc g2 o2 hg
    rw [List.foldl_cons, ih _ g2 o2 hg]
    have hne : ¬(g2 = gid ∧ o2 = t0) := fun hc => hg hc.1
    simp [updateStep, groupObjPerms_update_other hne]

/-- Helper: when the group already holds exactly the expected codenames on
every target, folding `updateStep` is the identity (no operation counted,
store unchanged). -/
theorem foldl_updateStep_fixed (gid : Nat) (model_name : String)
    (short_perm_codes : List String) :
    ∀ (targets : List Nat) (acc : PermStore × Nat),
      (∀ t ∈ targets,
        groupObjPerms acc.1 gid t = expectedPerms model_name short_perm_codes) →
      targets.foldl (updateStep gid model_name short_perm_codes) acc = acc := by
  intro targets
  induction targets with
  | nil => intro acc _; rfl
  | cons t0 rest ih =>
    rintro ⟨s, n⟩ h
    rw [List.foldl_cons]
    have hstep : updateStep gid model_name short_perm_codes (s, n) t0 = (s, n) := by
      unfold updateStep
      rw [update_fixed (h t0 (List.mem_cons_self t0 rest))]
      simp
    rw [hstep]
    exact ih (s, n) (fun t ht => h t (List.mem_cons_of_mem t0 ht))

/-- C7: `reset_permissions_for_group()` is idempotent by delta
reconciliation — with no intervening change to the permission store or the
target list, a second call performs zero grant/revoke operations and leaves
the store exactly as the first call left it. -/
theorem c7_reset_permissions_idempotent (s : PermStore) (gid : Nat)
    (model_name : String) (short_perm_codes : List String) (targets : List Nat) :
    reset_permissions_for_group
        (reset_permissions_for_group s gid model_name short_perm_codes false
          targets).1
        gid model_name short_perm_codes false targets
      = ((reset_permissions_for_group s gid model_name short_perm_codes false
          targets).1, 0) := by
  unfold reset_permissions_for_group
  simp only [Bool.false_eq_true, if_false]
  rw [foldl_updateStep_fixed]
  intro t ht
  rw [foldl_updateStep_self]
  simp [ht]

/-- Helper: `get_or_create` finds no row when the role is not among the
existing rows. -/
theorem find_role_none {rows : List (String × Nat)} {role : String}
    (h : role ∉ rows.map (fun row => row.1)) :
    rows.find? (fun row => row.1 == role) = none := by
  apply List.find?_eq_none.mpr
  intro row hrow hc
  rw [beq_iff_eq] at hc
  exact h (hc ▸ List.mem_map_of_mem (fun row => row.1) hrow)

/-- Helper: the full fold of `reset_perm_groups` over fresh roles — the
produced role keys, the monotone group-id counter, the bound on assigned
group ids, the preservation of previously assigned groups, and the exact
grant set of every produced role group. -/
theorem reset_perm_groups_spec (model_name : String) (domainId : Nat) :
    ∀ (defs : List RoleDef) (st : RBACState),
      (defs.map (fun rd => rd.1)).Nodup →
      (∀ rd ∈ defs, rd.1 ∉ st.roleRows.map (fun row => row.1)) →
      (∀ row ∈ st.roleRows, row.2 < st.nextGroupId) →
      ((reset_perm_groups defs model_name domainId st).roleRows.map
          (fun row => row.1)
        = st.roleRows.map (fun row => row.1) ++ defs.map (fun rd => rd.1))
      ∧ st.nextGroupId ≤ (reset_perm_groups defs model_name domainId st).nextGroupId
      ∧ (∀ row ∈ (reset_perm_groups defs model_name domainId st).roleRows,
          row.2 < (reset_perm_groups defs model_name domainId st).nextGroupId)
      ∧ (∀ g o, g < st.nextGroupId →
          groupObjPerms (reset_perm_groups defs model_name domainId st).perms g o
            = groupObjPerms st.perms g o)
      ∧ (∀ role gid,
          (role, gid) ∈ (reset_perm_groups defs model_name domainId st).roleRows →
          (role, gid) ∈ st.roleRows ∨
          ∃ label codes, (role, label, codes) ∈ defs ∧
            groupObjPerms (reset_perm_groups defs model_name domainId st).perms gid
                domainId
              = expectedPerms model_name codes) := by
  intro defs
  induction defs with
  | nil =>
    intro st _ _ hrows
    exact ⟨(List.append_nil _).symm, le_refl _, hrows, fun g o _ => rfl,
      fun role gid hmem => Or.inl hmem⟩
  | cons rd rest ih =>
    intro st hnd hdisj hrows
    have hfind : st.roleRows.find? (fun row => row.1 == rd.1) = none :=
      find_role_none (hdisj rd (List.mem_cons_self rd rest))
    have hfold : reset_perm_groups (rd :: rest) model_name domainId st
        = reset_perm_groups rest model_name domainId
            (roleStep model_name domainId st rd) := by
      simp [reset_perm_groups]
    have hstep : roleStep model_name domainId st rd
        = ⟨st.roleRows ++ [(rd.1, st.nextGroupId)],
            (reset_permissions_for_group st.perms st.nextGroupId model_name rd.2.2
              false [domainId]).1,
            st.nextGroupId + 1⟩ := by
      unfold roleStep
      rw [hfind]
    set st1 : RBACState :=
      ⟨st.roleRows ++ [(rd.1, st.nextGroupId)],
        (reset_permissions_for_group st.perms st.nextGroupId model_name rd.2.2
          false [domainId]).1,
        st.nextGroupId + 1⟩ with hst1
    have f1 : groupObjPerms st1.perms st.nextGroupId domainId
        = expectedPerms model_name rd.2.2 := by
      show groupObjPerms
        (reset_permissions_for_group st.perms st.nextGroupId model_name rd.2.2
          false [domainId]).1 st.nextGroupId domainId = _
      unfold reset_permissions_for_group
      simp only [Bool.false_eq_true, if_false]
      rw [foldl_updateStep_self]
      simp
    have f2 : ∀ g o, g ≠ st.nextGroupId →
        groupObjPerms st1.perms g o = groupObjPerms st.perms g o := by
      intro g o hg
      show groupObjPerms
        (reset_permissions_for_group st.perms st.nextGroupId model_name rd.2.2
          false [domainId]).1 g o = _
      unfold reset_permissions_for_group
      simp only [Bool.false_eq_true, if_false]
      rw [foldl_updateStep_other _ _ _ _ _ _ _ hg]
    have hnd' : (rest.map (fun rd => rd.1)).Nodup := by
      rw [List.map_cons, List.nodup_cons] at hnd
      exact hnd.2
    have hhead : rd.1 ∉ rest.map (fun rd => rd.1) := by
      rw [List.map_cons, List.nodup_cons] at hnd
      exact hnd.1
    have hdisj' : ∀ rd2 ∈ rest, rd2.1 ∉ st1.roleRows.map (fun row => row.1) := by
      intro rd2 hrd2
      show rd2.1 ∉ (st.roleRows ++ [(rd.1, st.nextGroupId)]).map (fun row => row.1)
      rw [List.map_append]
      intro hc
      rcases List.mem_append.mp hc with hc | hc
      · exact hdisj rd2 (List.mem_cons_of_mem rd hrd2) hc
      · simp only [List.map_cons, List.map_nil, List.mem_singleton] at hc
        exact hhead (hc ▸ List.mem_map_of_mem (fun rd => rd.1) hrd2)
    have hrows' : ∀ row ∈ st1.roleRows, row.2 < st1.nextGroupId := by
      intro row hrow
      rcases List.mem_append.mp hrow with hrow | hrow
      · exact Nat.lt_succ_of_lt (hrows row hrow)
      · simp only [List.mem_singleton] at hrow
        rw [hrow]
        exact Nat.lt_succ_self _
    obtain ⟨a', b', c', d', e'⟩ := ih st1 hnd' hdisj' hrows'
    rw [hfold, hstep]
    refine ⟨?_, ?_, c', ?_, ?_⟩
    · rw [a']
      show (st.roleRows ++ [(rd.1, st.nextGroupId)]).map (fun row => row.1) ++ _ = _
      rw [List.map_append, List.append_assoc]
      rfl
    · exact le_trans (Nat.le_succ _) b'
    · intro g o hg
      rw [d' g o (Nat.lt_succ_of_lt hg), f2 g o (Nat.ne_of_lt hg)]
    · intro role gid hmem
      rcases e' role gid hmem with hold | ⟨label, codes, hlc, heq⟩
      · rcases List.mem_append.mp hold with hold | hold
        · exact Or.inl hold
        · simp only [List.mem_singleton, Prod.mk.injEq] at hold
          obtain ⟨hrole, hgid⟩ := hold
          subst hrole; subst hgid
          refine Or.inr ⟨rd.2.1, rd.2.2, List.mem_cons_self rd rest, ?_⟩
          rw [d' st.nextGroupId domainId (Nat.lt_succ_self _), f1]
      · exact Or.inr ⟨label, codes, List.mem_cons_of_mem rd hlc, heq⟩

/-- C6: after the first save of a fresh non-hierarchical `PermDomain` (no
existing role rows), exactly one `PermRole` row exists per key of
`ROLE_DEFINITIONS` (the produced role keys are exactly the definition keys,
in order), and every produced role group holds on the domain object exactly
the permission codenames derived from its entry — no more, no fewer. -/
theorem c6_fresh_domain_role_fidelity (roleDefs : List RoleDef)
    (model_name : String) (domainId : Nat) (perms0 : PermStore) (g0 : Nat)
    (hnd : (roleDefs.map (fun rd => rd.1)).Nodup) :
    ((permDomainFreshSave roleDefs model_name domainId perms0 g0).roleRows.map
        (fun row => row.1)
      = roleDefs.map (fun rd => rd.1))
    ∧ (∀ role gid,
        (role, gid)
          ∈ (permDomainFreshSave roleDefs model_name domainId perms0 g0).roleRows →
        ∃ label codes, (role, label, codes) ∈ roleDefs ∧
          groupObjPerms
              (permDomainFreshSave roleDefs model_name domainId perms0 g0).perms
              gid domainId
            = expectedPerms model_name codes) := by
  obtain ⟨a, _, _, _, e⟩ :=
    reset_perm_groups_spec model_name domainId roleDefs ⟨[], perms0, g0⟩ hnd
      (by intro rd _ hc; simp at hc) (by intro row hrow; simp at hrow)
  constructor
  · exact a
  · intro role gid hmem
    rcases e role gid hmem with hold | hnew
    · simp at hold
    · exact hnew

/-- C6, witness: a fresh domain of a `team` model with the stock
`ROLE_DEFINITIONS` produces exactly the five role rows, and the `own`
group (group id 5, domain pk 1) holds exactly the six owner codenames. -/
theorem c6_fresh_domain_role_fidelity_witness :
    ((permDomainFreshSave ROLE_DEFINITIONS "team" 1 ∅ 1).roleRows.map
        (fun row => row.1)
      = ["mem", "view", "con", "adm", "own"])
    ∧ groupObjPerms (permDomainFreshSave ROLE_DEFINITIONS "team" 1 ∅ 1).perms 5 1
        = expectedPerms "team"
            ["view", "add_on", "change_on", "change", "change_permission",
              "delete"] := by
  have h := c6_fresh_domain_role_fidelity ROLE_DEFINITIONS "team" 1 ∅ 1 (by decide)
  refine ⟨h.1.trans (by decide), ?_⟩
  obtain ⟨label, codes, hmem, heq⟩ := h.2 "own" 5 (by decide)
  have hcodes : codes
      = ["view", "add_on", "change_on", "change", "change_permission",
          "delete"] := by
    simp only [ROLE_DEFINITIONS, List.mem_cons, List.not_mem_nil, or_false,
      Prod.mk.injEq] at hmem
    rcases hmem with h1 | h1 | h1 | h1 | h1 <;> first
      | (exact absurd h1.1 (by decide))
      | (exact h1.2.2)
  rw [hcodes] at heq
  exact heq

end Permissible
